import Mathlib

/-!
Verification of the ISTAC assistant's anti-hallucination indicator
resolution subsystem (`src/data/ids_cache.py`, `src/data/resolver.py`,
`src/data/validator.py`, `src/data/dimensions.py`).

Strings are modelled as lists of Unicode code points (`List Nat`), exactly
the view Python exposes of `str`.  The character-level tables (`nfdChar`,
`isMnCode`, `pyUpperChar`, `pyLowerChar`) model `unicodedata.normalize('NFD',·)`,
the `Mn` category test, `str.upper` and `str.lower` on the alphabet this
program works with (ASCII plus the Spanish accented letters); every other
code point is inert, which matches Unicode on the repertoire the catalog
and the queries of this program use.
-/

/-- Code points of a Lean string literal, i.e. the Python `str` it denotes. -/
def strToCodes (s : String) : List Nat := s.data.map Char.toNat

/-- Apostrophe code point (U+0027), used when rebuilding Python message strings. -/
def q : List Nat := [39]

/-- Unicode `Mn` (combining mark) test, restricted to the marks produced by
`nfdChar`: combining acute (U+0301), tilde (U+0303), diaeresis (U+0308). -/
def isMnCode (c : Nat) : Bool := decide (c = 769 ∨ c = 771 ∨ c = 776)

/-- NFD decomposition of one code point (`unicodedata.normalize('NFD', ·)`),
covering the Spanish precomposed letters; all other code points are
NFD-inert. -/
def nfdChar (c : Nat) : List Nat :=
  if c = 225 then [97, 769]       -- a acute
  else if c = 233 then [101, 769] -- e acute
  else if c = 237 then [105, 769] -- i acute
  else if c = 243 then [111, 769] -- o acute
  else if c = 250 then [117, 769] -- u acute
  else if c = 241 then [110, 771] -- n tilde
  else if c = 252 then [117, 776] -- u diaeresis
  else if c = 193 then [65, 769]  -- A acute
  else if c = 201 then [69, 769]  -- E acute
  else if c = 205 then [73, 769]  -- I acute
  else if c = 211 then [79, 769]  -- O acute
  else if c = 218 then [85, 769]  -- U acute
  else if c = 209 then [78, 771]  -- N tilde
  else if c = 220 then [85, 776]  -- U diaeresis
  else [c]

/-- `str.upper` on one code point: ASCII lowercase and the Spanish accented
lowercase letters map to their uppercase forms, everything else is fixed. -/
def pyUpperChar (c : Nat) : Nat :=
  if 97 ≤ c ∧ c ≤ 122 then c - 32
  else if c = 225 then 193
  else if c = 233 then 201
  else if c = 237 then 205
  else if c = 243 then 211
  else if c = 250 then 218
  else if c = 241 then 209
  else if c = 252 then 220
  else c

/-- `str.lower` on one code point. -/
def pyLowerChar (c : Nat) : Nat :=
  if 65 ≤ c ∧ c ≤ 90 then c + 32
  else if c = 193 then 225
  else if c = 201 then 233
  else if c = 205 then 237
  else if c = 211 then 243
  else if c = 218 then 250
  else if c = 209 then 241
  else if c = 220 then 252
  else c

/-- `str.upper`. -/
def pyUpper (s : List Nat) : List Nat := s.map pyUpperChar

/-- `str.lower`. -/
def pyLower (s : List Nat) : List Nat := s.map pyLowerChar

/-- Python whitespace test (ASCII subset: space, tab, LF, VT, FF, CR). -/
def isWSCode (c : Nat) : Bool := c = 32 || c = 9 || c = 10 || c = 11 || c = 12 || c = 13

/-- `str.strip()`: drop leading and trailing whitespace. -/
def pyStrip (s : List Nat) : List Nat :=
  ((s.dropWhile isWSCode).reverse.dropWhile isWSCode).reverse

/-- `IndicatorCache.normalize_code`: NFD-decompose, drop combining marks
(category `Mn`), upper-case, strip. -/
def normalize_code (code : List Nat) : List Nat :=
  pyStrip (pyUpper ((code.flatMap nfdChar).filter (fun c => !isMnCode c)))

/-- A code point left untouched by every stage of `normalize_code`. -/
def stableChar (c : Nat) : Prop :=
  nfdChar c = [c] ∧ isMnCode c = false ∧ pyUpperChar c = c

/-- Code points that `nfdChar` decomposes. -/
def NotSpecial (c : Nat) : Prop :=
  ¬(c = 225 ∨ c = 233 ∨ c = 237 ∨ c = 243 ∨ c = 250 ∨ c = 241 ∨ c = 252 ∨
    c = 193 ∨ c = 201 ∨ c = 205 ∨ c = 211 ∨ c = 218 ∨ c = 209 ∨ c = 220)

theorem nfd_inert (c : Nat) (h : NotSpecial c) : nfdChar c = [c] := by
  unfold NotSpecial at h
  push_neg at h
  obtain ⟨h1, h2, h3, h4, h5, h6, h7, h8, h9, h10, h11, h12, h13, h14⟩ := h
  unfold nfdChar
  rw [if_neg h1, if_neg h2, if_neg h3, if_neg h4, if_neg h5, if_neg h6, if_neg h7,
    if_neg h8, if_neg h9, if_neg h10, if_neg h11, if_neg h12, if_neg h13, if_neg h14]

theorem pyUpperChar_id (c : Nat) (h0 : ¬(97 ≤ c ∧ c ≤ 122))
    (h1 : c ≠ 225) (h2 : c ≠ 233) (h3 : c ≠ 237) (h4 : c ≠ 243)
    (h5 : c ≠ 250) (h6 : c ≠ 241) (h7 : c ≠ 252) : pyUpperChar c = c := by
  unfold pyUpperChar
  rw [if_neg h0, if_neg h1, if_neg h2, if_neg h3, if_neg h4, if_neg h5, if_neg h6,
    if_neg h7]

theorem stable_inert (c : Nat) (h : NotSpecial c) (hmn : isMnCode c = false) :
    stableChar (pyUpperChar c) := by
  have h' := h
  unfold NotSpecial at h'
  push_neg at h'
  obtain ⟨h1, h2, h3, h4, h5, h6, h7, h8, h9, h10, h11, h12, h13, h14⟩ := h'
  by_cases hl : 97 ≤ c ∧ c ≤ 122
  · have hc : pyUpperChar c = c - 32 := by unfold pyUpperChar; rw [if_pos hl]
    rw [hc]
    refine ⟨?_, ?_, ?_⟩
    · exact nfd_inert _ (by unfold NotSpecial; omega)
    · unfold isMnCode; rw [decide_eq_false_iff_not]; omega
    · exact pyUpperChar_id _ (by omega) (by omega) (by omega) (by omega) (by omega)
        (by omega) (by omega) (by omega)
  · have hc : pyUpperChar c = c := pyUpperChar_id c hl h1 h2 h3 h4 h5 h6 h7
    rw [hc]
    exact ⟨nfd_inert c h, hmn, hc⟩

theorem stableChar_of_nfd (c d : Nat) (hd : d ∈ nfdChar c)
    (hmn : isMnCode d = false) : stableChar (pyUpperChar d) := by
  by_cases hs : NotSpecial c
  · rw [nfd_inert c hs, List.mem_singleton] at hd
    subst hd
    exact stable_inert d hs hmn
  · unfold NotSpecial at hs
    rw [not_not] at hs
    rcases hs with rfl | rfl | rfl | rfl | rfl | rfl | rfl | rfl | rfl | rfl | rfl | rfl | rfl | rfl
    all_goals (
      simp [nfdChar] at hd
      rcases hd with rfl | rfl)
    all_goals (first
      | exact ⟨by decide, by decide, by decide⟩
      | exact absurd hmn (by decide))

theorem dropWhile_idem (p : Nat → Bool) (l : List Nat) :
    (l.dropWhile p).dropWhile p = l.dropWhile p := by
  induction l with
  | nil => rfl
  | cons a t ih =>
    by_cases h : p a
    · simp [List.dropWhile_cons, h, ih]
    · simp [List.dropWhile_cons, h]

theorem dropWhile_self_of_take (p : Nat → Bool) (X Y : List Nat)
    (hX : X.dropWhile p = X) (hpre : ∃ t, Y ++ t = X) :
    Y.dropWhile p = Y := by
  obtain ⟨t, rfl⟩ := hpre
  cases Y with
  | nil => rfl
  | cons a Ytail =>
    by_cases h : p a
    · exfalso
      have h1 : ((a :: Ytail) ++ t).dropWhile p = (Ytail ++ t).dropWhile p := by
        simp [List.dropWhile_cons, h]
      rw [h1] at hX
      have h2 := congrArg List.length hX
      have h3 := (List.dropWhile_suffix (l := Ytail ++ t) p).sublist.length_le
      simp only [List.length_append, List.length_cons] at h2 h3
      omega
    · simp [List.dropWhile_cons, h]

theorem pyStrip_starts_dropWhile (s : List Nat) :
    ∃ t, pyStrip s ++ t = s.dropWhile isWSCode := by
  obtain ⟨u, hu⟩ :=
    List.dropWhile_suffix (l := (s.dropWhile isWSCode).reverse) isWSCode
  refine ⟨u.reverse, ?_⟩
  have h2 := congrArg List.reverse hu
  simpa [pyStrip] using h2

theorem pyStrip_idem (s : List Nat) : pyStrip (pyStrip s) = pyStrip s := by
  have h2 : (pyStrip s).dropWhile isWSCode = pyStrip s :=
    dropWhile_self_of_take _ _ _ (dropWhile_idem _ _) (pyStrip_starts_dropWhile s)
  have h4 : (pyStrip s).reverse = (s.dropWhile isWSCode).reverse.dropWhile isWSCode := by
    unfold pyStrip; rw [List.reverse_reverse]
  show ((((pyStrip s).dropWhile isWSCode).reverse).dropWhile isWSCode).reverse = pyStrip s
  rw [h2, h4, dropWhile_idem, ← h4, List.reverse_reverse]

/-- The pre-strip pipeline of `normalize_code`: NFD, drop `Mn`, upper. -/
def normCore (s : List Nat) : List Nat :=
  pyUpper ((s.flatMap nfdChar).filter (fun c => !isMnCode c))

theorem normCore_stable (s : List Nat) : ∀ c ∈ normCore s, stableChar c := by
  intro c hc
  unfold normCore pyUpper at hc
  rw [List.mem_map] at hc
  obtain ⟨d, hd, rfl⟩ := hc
  rw [List.mem_filter] at hd
  obtain ⟨hd1, hd2⟩ := hd
  rw [List.mem_flatMap] at hd1
  obtain ⟨a, _, hda⟩ := hd1
  exact stableChar_of_nfd a d hda (by simpa using hd2)

theorem normCore_fixed (t : List Nat) (h : ∀ c ∈ t, stableChar c) :
    normCore t = t := by
  induction t with
  | nil => rfl
  | cons a l ih =>
    obtain ⟨h1, h2, h3⟩ := h a (by simp)
    have ihl := ih (fun c hc => h c (by simp [hc]))
    unfold normCore pyUpper at ihl ⊢
    simp only [List.flatMap_cons, h1, List.singleton_append, List.filter_cons, h2,
      Bool.not_false, if_true, List.map_cons, h3, ihl]

theorem mem_pyStrip (s : List Nat) (c : Nat) (h : c ∈ pyStrip s) : c ∈ s := by
  unfold pyStrip at h
  rw [List.mem_reverse] at h
  have h2 := (List.dropWhile_suffix (l := (s.dropWhile isWSCode).reverse) isWSCode).subset h
  rw [List.mem_reverse] at h2
  exact (List.dropWhile_suffix isWSCode).subset h2

theorem normalize_code_idem (s : List Nat) :
    normalize_code (normalize_code s) = normalize_code s := by
  show pyStrip (normCore (pyStrip (normCore s))) = pyStrip (normCore s)
  have hstable : ∀ c ∈ pyStrip (normCore s), stableChar c := fun c hc =>
    normCore_stable s c (mem_pyStrip _ _ hc)
  rw [normCore_fixed _ hstable, pyStrip_idem]

/-- C7: `normalize_code` is idempotent, maps the empty string to the empty
string, and is case- and diacritic-insensitive on the spec's example:
`normalize("POBLACIÓN") == normalize("poblacion") == "POBLACION"`.  (It is a
total Lean function, so it cannot fail.) -/
theorem normalize_code_spec :
    (∀ s : List Nat, normalize_code (normalize_code s) = normalize_code s) ∧
    normalize_code [] = [] ∧
    normalize_code (strToCodes "POBLACIÓN") = strToCodes "POBLACION" ∧
    normalize_code (strToCodes "poblacion") = strToCodes "POBLACION" := by
  refine ⟨normalize_code_idem, by decide, by decide, by decide⟩

/-!  ## The identifier catalog (`src/data/ids_cache.py`) -/

/-- `IndicatorInfo`: basic record of one indicator. -/
structure IndicatorInfo where
  code : List Nat
  title : List Nat
  subject : List Nat
deriving DecidableEq

/-- An input record handed to `IndicatorCache.load` (a Python dict read with
`ind.get("code", "")`, `ind.get("title", "")`, `ind.get("subject", "")`). -/
structure RawRecord where
  code : List Nat
  title : List Nat
  subject : List Nat
deriving DecidableEq

/-- Python substring test `needle in hay`. -/
def pyContains (needle hay : List Nat) : Bool := decide (needle <:+: hay)

/-- Python `dict` lookup `d.get(k)` on an insertion-ordered association list. -/
def dictGet (d : List (List Nat × IndicatorInfo)) (k : List Nat) :
    Option IndicatorInfo :=
  (d.find? (fun p => decide (p.1 = k))).map Prod.snd

/-- Python `dict` assignment `d[k] = v`: update in place if the key exists,
else append (insertion order preserved). -/
def dictSet (d : List (List Nat × IndicatorInfo)) (k : List Nat)
    (v : IndicatorInfo) : List (List Nat × IndicatorInfo) :=
  if d.any (fun p => decide (p.1 = k)) then
    d.map (fun p => if p.1 = k then (k, v) else p)
  else d ++ [(k, v)]

/-- Python `set.add`. -/
def setAdd (s : List (List Nat)) (k : List Nat) : List (List Nat) :=
  if k ∈ s then s else s ++ [k]

/-- `IndicatorCache`: `_indicators` dict, `_codes` set (modelled as the list
of its elements), `_loaded` and `_from_tsv` flags.  The `threading.Lock` only
serialises `load`; in this sequential model it has no observable effect. -/
structure IndicatorCache where
  indicators : List (List Nat × IndicatorInfo)
  codes : List (List Nat)
  loaded : Bool
  from_tsv : Bool
deriving DecidableEq

/-- A freshly constructed cache (`IndicatorCache.__init__`). -/
def IndicatorCache.empty : IndicatorCache := ⟨[], [], false, false⟩

/-- One iteration of the `for ind in indicators` loop body of
`IndicatorCache.load`. -/
def loadStep (c : IndicatorCache) (ind : RawRecord) : IndicatorCache :=
  if normalize_code ind.code ≠ [] then
    { c with
      indicators := dictSet c.indicators (normalize_code ind.code)
        ⟨normalize_code ind.code, ind.title, ind.subject⟩,
      codes := setAdd c.codes (normalize_code ind.code) }
  else c

/-- `IndicatorCache.load(indicators, from_tsv)`. -/
def IndicatorCache.load (cache : IndicatorCache) (indicators : List RawRecord)
    (from_tsv : Bool) : IndicatorCache :=
  if cache.from_tsv && !from_tsv then cache
  else
    let c := indicators.foldl loadStep cache
    { c with loaded := true, from_tsv := c.from_tsv || from_tsv }

/-- `IndicatorCache.is_valid`: membership test on the normalized key. -/
def IndicatorCache.is_valid (cache : IndicatorCache) (code : List Nat) : Bool :=
  decide (normalize_code code ∈ cache.codes)

/-- `IndicatorCache.get_info`: dict lookup on `code.upper()` (note: not on the
normalized key). -/
def IndicatorCache.get_info (cache : IndicatorCache) (code : List Nat) :
    Option IndicatorInfo :=
  dictGet cache.indicators (pyUpper code)

/-- `IndicatorCache.count`. -/
def IndicatorCache.count (cache : IndicatorCache) : Nat := cache.codes.length

/-- `IndicatorCache.is_loaded`. -/
def IndicatorCache.is_loaded (cache : IndicatorCache) : Bool := cache.loaded

/-- `IndicatorCache.search`: case-insensitive substring match of the query
against code, title or subject, in dict iteration order, stopping once
`limit` results are collected (the loop's early `break` makes it the first
`limit` matches). -/
def IndicatorCache.search (cache : IndicatorCache) (query : List Nat)
    (limit : Nat) : List IndicatorInfo :=
  let ql := pyLower query
  ((cache.indicators.map Prod.snd).filter (fun info =>
    pyContains ql (pyLower info.code) || pyContains ql (pyLower info.title) ||
    pyContains ql (pyLower info.subject))).take limit

/-- Insert into a list of `(score, key)` pairs keeping scores descending. -/
def insertDesc (p : ℚ × List Nat) : List (ℚ × List Nat) → List (ℚ × List Nat)
  | [] => [p]
  | a :: t => if a.1 ≤ p.1 then p :: a :: t else a :: insertDesc p t

/-- Sort `(score, key)` pairs by descending score. -/
def sortDesc (l : List (ℚ × List Nat)) : List (ℚ × List Nat) :=
  l.foldr insertDesc []

/-- `difflib.get_close_matches(word, possibilities, n, cutoff)`, with the
library's `SequenceMatcher.ratio` abstracted as the similarity function
`sim` (the spec, §9, prescribes only the behavioural contract of the
similarity library: keep entries with similarity at least `cutoff`, order by
descending similarity, return at most `n`).  The library's
`real_quick_ratio`/`quick_ratio` pre-filters are upper bounds of `ratio`, so
the triple test is equivalent to the single cutoff test modelled here. -/
def get_close_matches (sim : List Nat → List Nat → ℚ) (word : List Nat)
    (possibilities : List (List Nat)) (n : Nat) (cutoff : ℚ) :
    List (List Nat) :=
  ((sortDesc (possibilities.filterMap (fun x =>
    if cutoff ≤ sim x word then some (sim x word, x) else none))).take n).map
    Prod.snd

/-- Phase (a) of `IndicatorCache.find_similar`: substring containment in
either direction between the upper-cased query and each known key. -/
def substrPhase (cache : IndicatorCache) (cu : List Nat) : List IndicatorInfo :=
  (cache.codes.filter (fun k => pyContains cu k || pyContains k cu)).filterMap
    (fun k => dictGet cache.indicators k)

/-- `IndicatorCache.find_similar(code, limit)`: substring phase, falling back
to `difflib.get_close_matches` with `n=limit, cutoff=0.4` when the substring
phase finds nothing, truncated to `limit`.  (`self._indicators[known_code]`
is modelled as `dictGet`/`filterMap`; `_codes` always holds exactly the dict
keys, so the lookup never fails on caches built by `load`.  The float cutoff
`0.4` is modelled as the rational `2/5`: for the word lengths involved the
IEEE comparison and the exact rational comparison agree.) -/
def IndicatorCache.find_similar (sim : List Nat → List Nat → ℚ)
    (cache : IndicatorCache) (code : List Nat) (limit : Nat) :
    List IndicatorInfo :=
  (if (substrPhase cache (pyUpper code)).isEmpty then
    (get_close_matches sim (pyUpper code) cache.codes limit (2/5)).filterMap
      (fun k => dictGet cache.indicators k)
  else substrPhase cache (pyUpper code)).take limit

/-!  ## C2: immutability after an authoritative load -/

/-- C2 (amended): once the catalog holds authoritative (TSV) data, every
subsequent non-authoritative load call returns the catalog unchanged — the
count is preserved and no entry is removed or overwritten.  (The original
claim additionally said a later authoritative load is a no-op; the
counterexample shows the code does not block a second authoritative load.) -/
theorem load_nonauth_noop (cache : IndicatorCache) (recs : List RawRecord)
    (h : cache.from_tsv = true) : IndicatorCache.load cache recs false = cache := by
  unfold IndicatorCache.load
  rw [h]
  rfl

/-- Witness for C2: a catalog authoritatively loaded with one record is
returned unchanged by a later non-authoritative load of a fabricated
record. -/
def cacheAuth : IndicatorCache :=
  IndicatorCache.load IndicatorCache.empty
    [⟨strToCodes "AAA", strToCodes "t", []⟩] true

theorem load_nonauth_noop_witness :
    cacheAuth.from_tsv = true ∧
    IndicatorCache.load cacheAuth [⟨strToCodes "FAKE", [], []⟩] false = cacheAuth :=
  ⟨by decide, load_nonauth_noop cacheAuth [⟨strToCodes "FAKE", [], []⟩] (by decide)⟩

/-- C2 counterexample: a SECOND authoritative load is not a no-op — it grows
the catalog (count 1 becomes 2), so "a later authoritative load is a no-op
(the first authoritative load wins)" is false of the code. -/
theorem load_second_auth_not_noop :
    cacheAuth.from_tsv = true ∧ cacheAuth.count = 1 ∧
    (IndicatorCache.load cacheAuth [⟨strToCodes "BBB", strToCodes "t", []⟩] true).count = 2 ∧
    IndicatorCache.load cacheAuth [⟨strToCodes "BBB", strToCodes "t", []⟩] true ≠ cacheAuth := by
  decide

/-!  ## C10: records with empty normalized codes are discarded; keys are normalized -/

/-- The invariant `load` maintains: every catalog key is a fixed point of
`normalize_code`, is non-empty, and the stored record carries its key as its
`code` field. -/
def GoodCache (c : IndicatorCache) : Prop :=
  (∀ k ∈ c.codes, normalize_code k = k ∧ k ≠ []) ∧
  (∀ p ∈ c.indicators, normalize_code p.1 = p.1 ∧ p.1 ≠ [] ∧ p.2.code = p.1)

theorem mem_setAdd (s : List (List Nat)) (k x : List Nat) (h : x ∈ setAdd s k) :
    x ∈ s ∨ x = k := by
  unfold setAdd at h
  split_ifs at h with hk
  · exact Or.inl h
  · rcases List.mem_append.1 h with h | h
    · exact Or.inl h
    · exact Or.inr (List.mem_singleton.1 h)

theorem mem_dictSet (d : List (List Nat × IndicatorInfo)) (k : List Nat)
    (v : IndicatorInfo) (p : List Nat × IndicatorInfo) (h : p ∈ dictSet d k v) :
    p ∈ d ∨ p = (k, v) := by
  unfold dictSet at h
  split_ifs at h with hk
  · rw [List.mem_map] at h
    obtain ⟨p', hp', rfl⟩ := h
    by_cases he : p'.1 = k
    · rw [if_pos he]; exact Or.inr rfl
    · rw [if_neg he]; exact Or.inl hp'
  · rcases List.mem_append.1 h with h | h
    · exact Or.inl h
    · exact Or.inr (List.mem_singleton.1 h)

theorem loadStep_good (c : IndicatorCache) (r : RawRecord) (h : GoodCache c) :
    GoodCache (loadStep c r) := by
  unfold loadStep
  by_cases hc : normalize_code r.code = []
  · rw [if_neg (by simpa using hc)]
    exact h
  · rw [if_pos hc]
    refine ⟨?_, ?_⟩
    · intro k hk
      rcases mem_setAdd _ _ _ hk with hk | rfl
      · exact h.1 k hk
      · exact ⟨normalize_code_idem _, hc⟩
    · intro p hp
      rcases mem_dictSet _ _ _ _ hp with hp | rfl
      · exact h.2 p hp
      · exact ⟨normalize_code_idem _, hc, rfl⟩

theorem loadFold_good (recs : List RawRecord) :
    ∀ cache, GoodCache cache → GoodCache (recs.foldl loadStep cache) := by
  induction recs with
  | nil => exact fun _ h => h
  | cons r t ih => exact fun c h => ih _ (loadStep_good c r h)

theorem loadFold_filter (recs : List RawRecord) :
    ∀ cache, recs.foldl loadStep cache =
      (recs.filter (fun r => decide (normalize_code r.code ≠ []))).foldl loadStep cache := by
  induction recs with
  | nil => intro cache; rfl
  | cons r t ih =>
    intro cache
    by_cases h : normalize_code r.code = []
    · have hstep : loadStep cache r = cache := by
        unfold loadStep
        rw [if_neg (by simpa using h)]
      have hfilter : (r :: t).filter (fun r => decide (normalize_code r.code ≠ []))
          = t.filter (fun r => decide (normalize_code r.code ≠ [])) := by
        simp [List.filter_cons, h]
      rw [List.foldl_cons, hstep, hfilter, ih]
    · have hfilter : (r :: t).filter (fun r => decide (normalize_code r.code ≠ []))
          = r :: t.filter (fun r => decide (normalize_code r.code ≠ [])) := by
        simp [List.filter_cons, h]
      rw [List.foldl_cons, hfilter, List.foldl_cons, ih]

/-- C10: `load` silently discards every record whose code normalizes to the
empty string (loading a list equals loading the list with those records
filtered out, so they never affect `count()` or anything else), and loading
preserves the invariant that every key is a normalized, non-empty code whose
stored record is keyed by it — in particular the catalog never contains the
empty string as a key. -/
theorem load_discards_empty_codes :
    (∀ (cache : IndicatorCache) (recs : List RawRecord) (flag : Bool),
      IndicatorCache.load cache recs flag =
        IndicatorCache.load cache
          (recs.filter (fun r => decide (normalize_code r.code ≠ []))) flag) ∧
    (∀ (cache : IndicatorCache) (recs : List RawRecord) (flag : Bool),
      GoodCache cache → GoodCache (IndicatorCache.load cache recs flag)) := by
  constructor
  · intro cache recs flag
    unfold IndicatorCache.load
    by_cases h : cache.from_tsv && !flag
    · rw [if_pos h, if_pos h]
    · rw [if_neg h, if_neg h, ← loadFold_filter]
  · intro cache recs flag h
    unfold IndicatorCache.load
    by_cases hg : cache.from_tsv && !flag
    · rw [if_pos hg]; exact h
    · rw [if_neg hg]
      exact loadFold_good recs cache h

/-- Witness for C10 at concrete inputs: a whitespace-only record is
discarded (the load equals the load of the filtered list) and the resulting
catalog does not contain the empty key. -/
theorem load_discards_empty_codes_witness :
    IndicatorCache.load IndicatorCache.empty
        [⟨strToCodes " ", strToCodes "x", []⟩, ⟨strToCodes "a", strToCodes "t", []⟩] true =
      IndicatorCache.load IndicatorCache.empty [⟨strToCodes "a", strToCodes "t", []⟩] true ∧
    ([] : List Nat) ∉ (IndicatorCache.load IndicatorCache.empty
        [⟨strToCodes " ", strToCodes "x", []⟩, ⟨strToCodes "a", strToCodes "t", []⟩] true).codes := by
  constructor
  · have h := load_discards_empty_codes.1 IndicatorCache.empty
      [⟨strToCodes " ", strToCodes "x", []⟩, ⟨strToCodes "a", strToCodes "t", []⟩] true
    rw [h]
    decide
  · have h := load_discards_empty_codes.2 IndicatorCache.empty
      [⟨strToCodes " ", strToCodes "x", []⟩, ⟨strToCodes "a", strToCodes "t", []⟩] true
      ⟨fun k hk => absurd hk (List.not_mem_nil k), fun p hp => absurd hp (List.not_mem_nil p)⟩
    intro hmem
    exact (h.1 [] hmem).2 rfl

/-!  ## C5: find_similar respects the cutoff, the ordering and the limit -/

/-- Scores (first components) in descending order. -/
def scoreGe (a b : ℚ × List Nat) : Prop := b.1 ≤ a.1

theorem mem_insertDesc (p x : ℚ × List Nat) (l : List (ℚ × List Nat)) :
    x ∈ insertDesc p l ↔ x = p ∨ x ∈ l := by
  induction l with
  | nil => simp [insertDesc]
  | cons a t ih =>
    unfold insertDesc
    by_cases h : a.1 ≤ p.1
    · rw [if_pos h]
      simp only [List.mem_cons]
    · rw [if_neg h]
      simp only [List.mem_cons, ih]
      tauto

theorem pairwise_insertDesc (p : ℚ × List Nat) (l : List (ℚ × List Nat))
    (h : l.Pairwise scoreGe) : (insertDesc p l).Pairwise scoreGe := by
  induction l with
  | nil => simp [insertDesc]
  | cons a t ih =>
    unfold insertDesc
    rcases List.pairwise_cons.1 h with ⟨ha, ht⟩
    by_cases hle : a.1 ≤ p.1
    · rw [if_pos hle]
      refine List.pairwise_cons.2 ⟨?_, h⟩
      intro b hb
      rcases List.mem_cons.1 hb with rfl | hb
      · exact hle
      · exact le_trans (ha b hb) hle
    · rw [if_neg hle]
      refine List.pairwise_cons.2 ⟨?_, ih ht⟩
      intro b hb
      rcases (mem_insertDesc p b t).1 hb with rfl | hb
      · exact le_of_not_le hle
      · exact ha b hb

theorem pairwise_sortDesc (l : List (ℚ × List Nat)) :
    (sortDesc l).Pairwise scoreGe := by
  induction l with
  | nil => exact List.Pairwise.nil
  | cons a t ih => exact pairwise_insertDesc a _ ih

theorem mem_sortDesc (l : List (ℚ × List Nat)) (x : ℚ × List Nat) :
    x ∈ sortDesc l ↔ x ∈ l := by
  induction l with
  | nil => simp [sortDesc]
  | cons a t ih =>
    show x ∈ insertDesc a (sortDesc t) ↔ _
    rw [mem_insertDesc, ih, List.mem_cons]

theorem scored_facts (sim : List Nat → List Nat → ℚ) (word : List Nat)
    (cutoff : ℚ) (poss : List (List Nat)) :
    ∀ pr ∈ poss.filterMap (fun x =>
        if cutoff ≤ sim x word then some (sim x word, x) else none),
      pr.1 = sim pr.2 word ∧ pr.2 ∈ poss ∧ cutoff ≤ sim pr.2 word := by
  intro pr hpr
  rw [List.mem_filterMap] at hpr
  obtain ⟨x, hx, hfx⟩ := hpr
  by_cases hc : cutoff ≤ sim x word
  · rw [if_pos hc] at hfx
    obtain rfl := Option.some.inj hfx
    exact ⟨rfl, hx, hc⟩
  · rw [if_neg hc] at hfx
    exact absurd hfx (Option.noConfusion)

theorem get_close_matches_spec (sim : List Nat → List Nat → ℚ) (word : List Nat)
    (poss : List (List Nat)) (n : Nat) (cutoff : ℚ) :
    (∀ x ∈ get_close_matches sim word poss n cutoff,
      cutoff ≤ sim x word ∧ x ∈ poss) ∧
    (get_close_matches sim word poss n cutoff).Pairwise
      (fun x y => sim y word ≤ sim x word) ∧
    (get_close_matches sim word poss n cutoff).length ≤ n := by
  refine ⟨?_, ?_, ?_⟩
  · intro x hx
    unfold get_close_matches at hx
    rw [List.mem_map] at hx
    obtain ⟨pr, hpr, rfl⟩ := hx
    have hpr2 := (mem_sortDesc _ _).1 (List.mem_of_mem_take hpr)
    have h := scored_facts sim word cutoff poss pr hpr2
    exact ⟨h.2.2, h.2.1⟩
  · unfold get_close_matches
    rw [List.pairwise_map]
    have hp : (sortDesc (poss.filterMap (fun x =>
        if cutoff ≤ sim x word then some (sim x word, x) else none))).Pairwise scoreGe :=
      pairwise_sortDesc _
    have hp2 := List.Pairwise.sublist (List.take_sublist n _) hp
    refine List.Pairwise.imp_of_mem ?_ hp2
    intro a b ha hb hab
    have ha2 := scored_facts sim word cutoff poss a
      ((mem_sortDesc _ _).1 (List.mem_of_mem_take ha))
    have hb2 := scored_facts sim word cutoff poss b
      ((mem_sortDesc _ _).1 (List.mem_of_mem_take hb))
    rw [← ha2.1, ← hb2.1]
    exact hab
  · unfold get_close_matches
    rw [List.length_map]
    exact List.length_take_le _ _

/-- C5: `find_similar(code, limit)` returns at most `limit` records; every
returned record either comes from a key in substring containment (either
direction) with the upper-cased query, or — only when the substring phase is
empty — from the approximate fallback, where its key's similarity to the
query is at least the `0.4` (= `2/5`) cutoff; the fallback candidate keys are
ordered by descending similarity. -/
theorem find_similar_spec (sim : List Nat → List Nat → ℚ)
    (cache : IndicatorCache) (code : List Nat) (limit : Nat) :
    (IndicatorCache.find_similar sim cache code limit).length ≤ limit ∧
    (∀ info ∈ IndicatorCache.find_similar sim cache code limit,
      (∃ k ∈ cache.codes,
        (pyContains (pyUpper code) k || pyContains k (pyUpper code)) = true ∧
        dictGet cache.indicators k = some info) ∨
      (substrPhase cache (pyUpper code) = [] ∧
        ∃ k ∈ get_close_matches sim (pyUpper code) cache.codes limit (2/5),
          dictGet cache.indicators k = some info ∧
          2/5 ≤ sim k (pyUpper code))) ∧
    (∀ k ∈ get_close_matches sim (pyUpper code) cache.codes limit (2/5),
      2/5 ≤ sim k (pyUpper code)) ∧
    (get_close_matches sim (pyUpper code) cache.codes limit (2/5)).Pairwise
      (fun x y => sim y (pyUpper code) ≤ sim x (pyUpper code)) ∧
    (substrPhase cache (pyUpper code) = [] →
      IndicatorCache.find_similar sim cache code limit =
        ((get_close_matches sim (pyUpper code) cache.codes limit (2/5)).filterMap
          (fun k => dictGet cache.indicators k)).take limit) := by
  have hgcm := get_close_matches_spec sim (pyUpper code) cache.codes limit (2/5)
  refine ⟨?_, ?_, fun k hk => (hgcm.1 k hk).1, hgcm.2.1, ?_⟩
  · unfold IndicatorCache.find_similar
    exact List.length_take_le _ _
  · intro info hinfo
    unfold IndicatorCache.find_similar at hinfo
    have hinfo2 := List.mem_of_mem_take hinfo
    by_cases he : (substrPhase cache (pyUpper code)).isEmpty
    · right
      rw [if_pos he] at hinfo2
      refine ⟨List.isEmpty_iff.1 he, ?_⟩
      rw [List.mem_filterMap] at hinfo2
      obtain ⟨k, hk, hlk⟩ := hinfo2
      exact ⟨k, hk, hlk, (hgcm.1 k hk).1⟩
    · left
      rw [if_neg he] at hinfo2
      unfold substrPhase at hinfo2
      rw [List.mem_filterMap] at hinfo2
      obtain ⟨k, hk, hlk⟩ := hinfo2
      rw [List.mem_filter] at hk
      exact ⟨k, hk.1, hk.2, hlk⟩
  · intro hempty
    unfold IndicatorCache.find_similar
    rw [if_pos (by simp [hempty])]

/-- A trivial stand-in similarity function, used only to instantiate
witnesses (the similarity function is external library behaviour). -/
def sim0 : List Nat → List Nat → ℚ := fun _ _ => 0

/-- Witness for C5: on a one-record catalog and the query "AA", the record
returned by `find_similar` is a substring-phase match. -/
theorem find_similar_spec_witness :
    (∃ k ∈ cacheAuth.codes,
      (pyContains (pyUpper (strToCodes "AA")) k ||
        pyContains k (pyUpper (strToCodes "AA"))) = true ∧
      dictGet cacheAuth.indicators k =
        some ⟨strToCodes "AAA", strToCodes "t", []⟩) ∨
    (substrPhase cacheAuth (pyUpper (strToCodes "AA")) = [] ∧
      ∃ k ∈ get_close_matches sim0 (pyUpper (strToCodes "AA")) cacheAuth.codes 5 (2/5),
        dictGet cacheAuth.indicators k =
          some ⟨strToCodes "AAA", strToCodes "t", []⟩ ∧
        2/5 ≤ sim0 k (pyUpper (strToCodes "AA"))) := by
  have h := find_similar_spec sim0 cacheAuth (strToCodes "AA") 5
  exact h.2.1 ⟨strToCodes "AAA", strToCodes "t", []⟩ (by decide)

/-!  ## The resolver (`src/data/resolver.py`) and validator (`src/data/validator.py`) -/

/-- `ResolverResult` (dataclass field order preserved; `__post_init__` turns
`candidates=None` into `[]`, modelled by always storing a list). -/
structure ResolverResult where
  success : Bool
  resolved_id : Option (List Nat)
  candidates : List IndicatorInfo
  message : List Nat
  needs_selection : Bool
deriving DecidableEq

/-- Python `str.split(sep)` for a one-code-point separator. -/
def splitSep (sep : Nat) : List Nat → List (List Nat)
  | [] => [[]]
  | c :: t =>
    if c = sep then [] :: splitSep sep t
    else
      match splitSep sep t with
      | [] => [[c]]
      | w :: rest => (c :: w) :: rest

/-- Python `str.isdigit()` (ASCII digits, the only ones this program meets). -/
def pyIsDigit (s : List Nat) : Bool :=
  !s.isEmpty && s.all (fun c => 48 ≤ c && c ≤ 57)

/-- `common_prefixes` of `extract_keywords`. -/
def common_prefixes : List (List Nat) :=
  [strToCodes "SEXO", strToCodes "EDAD", strToCodes "ISLA", strToCodes "MUN",
   strToCodes "REGION", strToCodes "HOMBRE", strToCodes "MUJER", strToCodes "TOTAL"]

/-- The body of the `for part in parts` loop of `extract_keywords`: a part
longer than 6 is split at the first known prefix that leaves a non-empty
remainder, otherwise kept whole; everything is lower-cased. -/
def expandPart (part : List Nat) : List (List Nat) :=
  if 6 < part.length then
    match common_prefixes.find? (fun p =>
        p.isPrefixOf part && decide (p.length < part.length)) with
    | some p =>
      [pyLower p] ++
        (if (part.drop p.length).isEmpty then [] else [pyLower (part.drop p.length)])
    | none => [pyLower part]
  else [pyLower part]

/-- `extract_keywords(code)`: upper-case, split on underscore, expand each
part, keep only keywords longer than 2 that are not purely numeric. -/
def extract_keywords (code : List Nat) : List (List Nat) :=
  if code.isEmpty then []
  else ((splitSep 95 (pyUpper code)).flatMap expandPart).filter
    (fun k => decide (2 < k.length) && !pyIsDigit k)

/-- Message `f"Indicador válido: {info.title}"`. -/
def msgValid (info : IndicatorInfo) : List Nat :=
  strToCodes "Indicador válido: " ++ info.title

/-- Message of the NOT_FOUND branch of `resolve_indicator`. -/
def msgNotFound (code : List Nat) : List Nat :=
  strToCodes "No se encontraron indicadores similares a " ++ q ++ code ++ q ++
  strToCodes ". Intenta con otra búsqueda."

/-- Message of the NEEDS_SELECTION branch of `resolve_indicator`. -/
def msgNotExist (code : List Nat) : List Nat :=
  strToCodes "El indicador " ++ q ++ code ++ q ++ strToCodes " no existe."

/-- The keyword-search phase of `resolve_indicator`: when keywords exist,
join the first three with spaces and run `cache.search`. -/
def keywordCandidates (cache : IndicatorCache) (code : List Nat) (limit : Nat) :
    List IndicatorInfo :=
  if (extract_keywords code).isEmpty then []
  else cache.search (List.intercalate [32] ((extract_keywords code).take 3)) limit

/-- Candidate list of `resolve_indicator`: keyword search, falling back to
`find_similar` when it finds nothing. -/
def resolveCandidates (sim : List Nat → List Nat → ℚ) (cache : IndicatorCache)
    (code : List Nat) (limit : Nat) : List IndicatorInfo :=
  if (keywordCandidates cache code limit).isEmpty then
    IndicatorCache.find_similar sim cache code limit
  else keywordCandidates cache code limit

/-- `resolve_indicator(code, limit)`.  `ensure_cache_loaded()` performs I/O
and is modelled by passing the ambient loaded cache.  The Python body reads
`info.title` after `info = cache.get_info(code)`; when `get_info` returns
`None` (it looks up the raw `code.upper()`, not the normalized key) this
raises an uncaught `AttributeError`, modelled as `none`. -/
def resolve_indicator (sim : List Nat → List Nat → ℚ) (cache : IndicatorCache)
    (code : List Nat) (limit : Nat) : Option ResolverResult :=
  if cache.is_valid code = true then
    match cache.get_info code with
    | some info => some ⟨true, some (pyUpper code), [], msgValid info, false⟩
    | none => none
  else if (resolveCandidates sim cache code limit).isEmpty then
    some ⟨false, none, [], msgNotFound code, false⟩
  else
    some ⟨false, none, resolveCandidates sim cache code limit, msgNotExist code, true⟩

/-- A catalog authoritatively loaded with the single real indicator
POBLACION. -/
def cachePob : IndicatorCache :=
  IndicatorCache.load IndicatorCache.empty
    [⟨strToCodes "POBLACION", strToCodes "Población total", []⟩] true

/-- C1 counterexample: `" POBLACION"` normalizes to the valid key
`"POBLACION"`, yet `resolve` does not return a successful result with the
normalized code — `get_info(" POBLACION")` is `None` and the `.title` read
raises (modelled as `none`). -/
theorem resolve_valid_counterexample :
    cachePob.is_valid (strToCodes " POBLACION") = true ∧
    resolve_indicator sim0 cachePob (strToCodes " POBLACION") 10 = none := by
  decide

/-- C1 (amended): for every code whose normalized form is a catalog key AND
whose raw upper-cased form equals its normalized form (no diacritics, no
surrounding whitespace), `resolve` succeeds with
`resolvedCode = normalize(code)`; for other valid-after-normalization codes
the call raises instead of returning a result (see the counterexample). -/
theorem resolve_valid_spec (sim : List Nat → List Nat → ℚ)
    (cache : IndicatorCache) (code : List Nat) (limit : Nat)
    (hback : ∀ k ∈ cache.codes, (dictGet cache.indicators k).isSome = true)
    (hvalid : cache.is_valid code = true)
    (hupper : pyUpper code = normalize_code code) :
    ∃ r, resolve_indicator sim cache code limit = some r ∧
      r.success = true ∧ r.resolved_id = some (normalize_code code) := by
  have hmem : normalize_code code ∈ cache.codes := by
    have h := hvalid
    unfold IndicatorCache.is_valid at h
    exact of_decide_eq_true h
  obtain ⟨info, hinfo⟩ := Option.isSome_iff_exists.1 (hback _ hmem)
  have hget : cache.get_info code = some info := by
    unfold IndicatorCache.get_info
    rw [hupper]
    exact hinfo
  unfold resolve_indicator
  rw [if_pos hvalid, hget]
  exact ⟨_, rfl, rfl, by rw [hupper]⟩

/-- Witness for C1's amended theorem at a concrete catalog and code. -/
theorem resolve_valid_spec_witness :
    ∃ r, resolve_indicator sim0 cachePob (strToCodes "POBLACION") 10 = some r ∧
      r.success = true ∧
      r.resolved_id = some (normalize_code (strToCodes "POBLACION")) :=
  resolve_valid_spec sim0 cachePob (strToCodes "POBLACION") 10
    (by decide) (by decide) (by decide)

/-- C3 (code bug): with POBLACION in the catalog, `resolve("población")`
takes the valid branch (`is_valid` normalizes the code), but `get_info`
looks up the raw upper-cased `"POBLACIÓN"`, gets `None`, and the `.title`
read raises an uncaught `AttributeError` — no structured `ResolverResult`
is returned (modelled as `none`). -/
theorem resolve_structured_result_bug :
    cachePob.is_valid (strToCodes "población") = true ∧
    cachePob.get_info (strToCodes "población") = none ∧
    resolve_indicator sim0 cachePob (strToCodes "población") 10 = none := by
  decide

/-!  ## C6: resolving the invented compound POBLACION_ISLA -/

/-- C6 (amended): for every catalog containing POBLACION (as key with its
record) and not containing POBLACION_ISLA, `resolve("POBLACION_ISLA")`
returns `success = false` and `needsSelection = true`; moreover, whenever
the keyword search ("poblacion isla") yields no candidates and at most
`limit` (= 10) keys stand in substring relation with the query, POBLACION
appears among the returned candidates' codes via the `find_similar`
substring fallback.  (The original claim asserted POBLACION is among the
candidates for EVERY such catalog; the counterexample shows the keyword
search can return other records only.) -/
theorem resolve_poblacion_isla (sim : List Nat → List Nat → ℚ)
    (cache : IndicatorCache) (info : IndicatorInfo)
    (hPOB : strToCodes "POBLACION" ∈ cache.codes)
    (hinfo : dictGet cache.indicators (strToCodes "POBLACION") = some info)
    (hcode : info.code = strToCodes "POBLACION")
    (hnot : strToCodes "POBLACION_ISLA" ∉ cache.codes) :
    ∃ r, resolve_indicator sim cache (strToCodes "POBLACION_ISLA") 10 = some r ∧
      r.success = false ∧ r.needs_selection = true ∧
      (keywordCandidates cache (strToCodes "POBLACION_ISLA") 10 = [] →
        (substrPhase cache (strToCodes "POBLACION_ISLA")).length ≤ 10 →
        strToCodes "POBLACION" ∈ r.candidates.map IndicatorInfo.code) := by
  have hvalid : cache.is_valid (strToCodes "POBLACION_ISLA") = false := by
    unfold IndicatorCache.is_valid
    rw [show normalize_code (strToCodes "POBLACION_ISLA") =
        strToCodes "POBLACION_ISLA" from by decide]
    exact decide_eq_false hnot
  have hsub : info ∈ substrPhase cache (strToCodes "POBLACION_ISLA") := by
    unfold substrPhase
    rw [List.mem_filterMap]
    refine ⟨strToCodes "POBLACION", ?_, hinfo⟩
    rw [List.mem_filter]
    exact ⟨hPOB, by decide⟩
  have hup : pyUpper (strToCodes "POBLACION_ISLA") = strToCodes "POBLACION_ISLA" := by
    decide
  have hfs_eq : IndicatorCache.find_similar sim cache (strToCodes "POBLACION_ISLA") 10 =
      (substrPhase cache (strToCodes "POBLACION_ISLA")).take 10 := by
    unfold IndicatorCache.find_similar
    rw [hup]
    rw [if_neg (by rw [List.isEmpty_iff]; exact List.ne_nil_of_mem hsub)]
  have hfs_ne : IndicatorCache.find_similar sim cache (strToCodes "POBLACION_ISLA") 10 ≠ [] := by
    rw [hfs_eq, ← List.length_pos, List.length_take]
    have hp := List.length_pos.2 (List.ne_nil_of_mem hsub)
    omega
  by_cases hkc : (keywordCandidates cache (strToCodes "POBLACION_ISLA") 10).isEmpty = true
  · have hrc : resolveCandidates sim cache (strToCodes "POBLACION_ISLA") 10 =
        IndicatorCache.find_similar sim cache (strToCodes "POBLACION_ISLA") 10 := by
      unfold resolveCandidates
      rw [if_pos hkc]
    have hne : ¬((resolveCandidates sim cache (strToCodes "POBLACION_ISLA") 10).isEmpty = true) := by
      rw [hrc, List.isEmpty_iff]
      exact hfs_ne
    unfold resolve_indicator
    rw [if_neg (by simp [hvalid]), if_neg hne, hrc]
    refine ⟨_, rfl, rfl, rfl, fun _ hlim => ?_⟩
    rw [hfs_eq, List.take_of_length_le hlim]
    exact List.mem_map.2 ⟨info, hsub, hcode⟩
  · have hne : ¬((resolveCandidates sim cache (strToCodes "POBLACION_ISLA") 10).isEmpty = true) := by
      unfold resolveCandidates
      rw [if_neg hkc]
      exact hkc
    unfold resolve_indicator
    rw [if_neg (by simp [hvalid]), if_neg hne]
    refine ⟨_, rfl, rfl, rfl, fun hkw _ => ?_⟩
    exact absurd (by rw [hkw]; rfl) hkc

/-- A catalog whose second record's title contains the keyword query
"poblacion isla". -/
def cacheC6 : IndicatorCache :=
  IndicatorCache.load IndicatorCache.empty
    [⟨strToCodes "POBLACION", strToCodes "x", []⟩,
     ⟨strToCodes "OTRO", strToCodes "poblacion isla", []⟩] true

/-- C6 counterexample: this catalog contains POBLACION and lacks
POBLACION_ISLA, yet the keyword search returns the OTRO record (its title
contains "poblacion isla"), so POBLACION is NOT among the candidates. -/
theorem resolve_poblacion_isla_counterexample :
    strToCodes "POBLACION" ∈ cacheC6.codes ∧
    strToCodes "POBLACION_ISLA" ∉ cacheC6.codes ∧
    resolve_indicator sim0 cacheC6 (strToCodes "POBLACION_ISLA") 10 =
      some ⟨false, none, [⟨strToCodes "OTRO", strToCodes "poblacion isla", []⟩],
        msgNotExist (strToCodes "POBLACION_ISLA"), true⟩ ∧
    strToCodes "POBLACION" ∉
      ([⟨strToCodes "OTRO", strToCodes "poblacion isla", []⟩] :
        List IndicatorInfo).map IndicatorInfo.code := by
  decide

/-- Witness for C6's amended theorem: on the one-record POBLACION catalog
the keyword search finds nothing and POBLACION is delivered through the
substring fallback. -/
theorem resolve_poblacion_isla_witness :
    ∃ r, resolve_indicator sim0 cachePob (strToCodes "POBLACION_ISLA") 10 = some r ∧
      r.success = false ∧ r.needs_selection = true ∧
      (keywordCandidates cachePob (strToCodes "POBLACION_ISLA") 10 = [] →
        (substrPhase cachePob (strToCodes "POBLACION_ISLA")).length ≤ 10 →
        strToCodes "POBLACION" ∈ r.candidates.map IndicatorInfo.code) :=
  resolve_poblacion_isla sim0 cachePob
    ⟨strToCodes "POBLACION", strToCodes "Población total", []⟩
    (by decide) (by decide) (by decide) (by decide)

/-!  ## C8: the validator's single-candidate auto-resolve policy -/

/-- `ValidationResult` (suggestions default to `[]` via `__post_init__`). -/
structure ValidationResult where
  is_valid : Bool
  message : List Nat
  suggestions : List IndicatorInfo
deriving DecidableEq

/-- `f"'{s.code}' ({s.title[:30]}...)"` of `validate_code`. -/
def suggestionName (s : IndicatorInfo) : List Nat :=
  q ++ s.code ++ q ++ strToCodes " (" ++ s.title.take 30 ++ strToCodes "...)"

/-- Suggestion message of `validate_code` (first three suggestion names,
comma-joined). -/
def msgSuggestions (code : List Nat) (suggestions : List IndicatorInfo) : List Nat :=
  strToCodes "El indicador " ++ q ++ code ++ q ++
  strToCodes " no existe. ¿Te refieres a: " ++
  List.intercalate (strToCodes ", ") ((suggestions.take 3).map suggestionName) ++
  strToCodes "?"

/-- No-alternatives message of `validate_code`. -/
def msgNoAlternatives (code : List Nat) : List Nat :=
  strToCodes "El indicador " ++ q ++ code ++ q ++
  strToCodes " no existe y no se encontraron alternativas similares."

/-- `IndicatorValidator.validate_code`.  Like `resolve_indicator`, the valid
branch reads `info.title` after a `get_info` on the raw upper-cased code and
can raise (modelled as `none`). -/
def validate_code (sim : List Nat → List Nat → ℚ) (cache : IndicatorCache)
    (code : List Nat) : Option ValidationResult :=
  if code.isEmpty = true then some ⟨false, strToCodes "Código vacío", []⟩
  else if cache.is_valid (pyUpper code) = true then
    match cache.get_info (pyUpper code) with
    | some info => some ⟨true, msgValid info, []⟩
    | none => none
  else if (IndicatorCache.find_similar sim cache (pyUpper code) 5).isEmpty = true then
    some ⟨false, msgNoAlternatives code, []⟩
  else
    some ⟨false, msgSuggestions code (IndicatorCache.find_similar sim cache (pyUpper code) 5),
      IndicatorCache.find_similar sim cache (pyUpper code) 5⟩

/-- `IndicatorValidator.resolve_code`: valid codes pass through; exactly one
suggestion auto-resolves; otherwise failure with the validation message. -/
def resolve_code (sim : List Nat → List Nat → ℚ) (cache : IndicatorCache)
    (code : List Nat) : Option (Bool × List Nat × List Nat) :=
  match validate_code sim cache code with
  | none => none
  | some result =>
    if result.is_valid = true then some (true, pyUpper code, result.message)
    else
      match result.suggestions with
      | [s] => some (true, s.code,
          strToCodes "Resuelto a " ++ q ++ s.code ++ q ++ strToCodes ": " ++ s.title)
      | _ => some (false, code, result.message)

/-- C8: when the code is non-empty and not valid, exactly one similar
suggestion auto-resolves (`success = true` with the suggestion's code), and
two or more suggestions always yield `success = false` (human selection
required). -/
theorem resolve_code_policy (sim : List Nat → List Nat → ℚ)
    (cache : IndicatorCache) (code : List Nat)
    (hne : code ≠ []) (hnv : cache.is_valid (pyUpper code) = false) :
    (∀ s, IndicatorCache.find_similar sim cache (pyUpper code) 5 = [s] →
      resolve_code sim cache code = some (true, s.code,
        strToCodes "Resuelto a " ++ q ++ s.code ++ q ++ strToCodes ": " ++ s.title)) ∧
    (2 ≤ (IndicatorCache.find_similar sim cache (pyUpper code) 5).length →
      ∃ m, resolve_code sim cache code = some (false, code, m)) := by
  have hnem : ¬(code.isEmpty = true) := by
    rw [List.isEmpty_iff]
    exact hne
  constructor
  · intro s hs
    have hval : validate_code sim cache code =
        some ⟨false, msgSuggestions code [s], [s]⟩ := by
      unfold validate_code
      rw [if_neg hnem, if_neg (by simp [hnv]), hs]
      rw [if_neg (by simp)]
    unfold resolve_code
    rw [hval]
    rfl
  · intro hlen
    cases hfs : IndicatorCache.find_similar sim cache (pyUpper code) 5 with
    | nil => rw [hfs] at hlen; simp at hlen
    | cons a t =>
      cases t with
      | nil => rw [hfs] at hlen; simp at hlen
      | cons b t2 =>
        refine ⟨msgSuggestions code (a :: b :: t2), ?_⟩
        have hval : validate_code sim cache code =
            some ⟨false, msgSuggestions code (a :: b :: t2), a :: b :: t2⟩ := by
          unfold validate_code
          rw [if_neg hnem, if_neg (by simp [hnv]), hfs]
          rw [if_neg (by simp)]
        unfold resolve_code
        rw [hval]
        rfl

/-- Witness for C8: on the POBLACION catalog, the invalid code "POBLA" has
exactly one suggestion (substring match POBLACION) and is auto-resolved. -/
theorem resolve_code_policy_witness :
    resolve_code sim0 cachePob (strToCodes "POBLA") =
      some (true, strToCodes "POBLACION",
        strToCodes "Resuelto a " ++ q ++ strToCodes "POBLACION" ++ q ++
        strToCodes ": " ++ strToCodes "Población total") := by
  have h := (resolve_code_policy sim0 cachePob (strToCodes "POBLA")
    (by decide) (by decide)).1
    ⟨strToCodes "POBLACION", strToCodes "Población total", []⟩ (by decide)
  exact h

/-!  ## C4: the selection session state machine -/

/-- Decimal digits of a number (fuel-based, `fuel > n` suffices). -/
def decDigitsAux : Nat → Nat → List Nat
  | 0, _ => []
  | fuel + 1, n => if n < 10 then [48 + n] else decDigitsAux fuel (n / 10) ++ [48 + n % 10]

/-- Python `str(n)` for a natural number. -/
def natToDec (n : Nat) : List Nat := decDigitsAux (n + 1) n

/-- Python `int(s)` for a digit string. -/
def parseNat (s : List Nat) : Nat := s.foldl (fun acc c => acc * 10 + (c - 48)) 0

/-- Message `f"Seleccionado: {c.code} - {c.title}"`. -/
def msgSelected (c : IndicatorInfo) : List Nat :=
  strToCodes "Seleccionado: " ++ c.code ++ strToCodes " - " ++ c.title

/-- `validate_selection(selection, candidates)`: a 1-based index or an exact
(upper-cased) candidate code; everything else is rejected with a message
listing up to 5 valid codes. -/
def validate_selection (selection : List Nat) (candidates : List IndicatorInfo) :
    Bool × Option (List Nat) × List Nat :=
  if selection.isEmpty || candidates.isEmpty then
    (false, none, strToCodes "Selección vacía")
  else if pyIsDigit (pyStrip selection) = true then
    if 1 ≤ parseNat (pyStrip selection) ∧ parseNat (pyStrip selection) ≤ candidates.length then
      (true, some (candidates.getD (parseNat (pyStrip selection) - 1) ⟨[], [], []⟩).code,
        msgSelected (candidates.getD (parseNat (pyStrip selection) - 1) ⟨[], [], []⟩))
    else
      (false, none, strToCodes "Número fuera de rango. Elige entre 1 y " ++
        natToDec candidates.length ++ strToCodes ".")
  else
    match candidates.find? (fun c => decide (c.code = pyUpper (pyStrip selection))) with
    | some c => (true, some c.code, msgSelected c)
    | none =>
      (false, none, strToCodes "El valor " ++ q ++ pyStrip selection ++ q ++
        strToCodes " no coincide con ninguna opción. IDs válidos: " ++
        List.intercalate (strToCodes ", ") ((candidates.take 5).map IndicatorInfo.code))

/-- `SelectionState` (dataclass; `max_attempts` defaults to 2). -/
structure SelectionState where
  candidates : List IndicatorInfo
  attempts : Nat
  max_attempts : Nat
  context : List Nat
deriving DecidableEq

/-- `SelectionState.can_retry`. -/
def SelectionState.can_retry (s : SelectionState) : Bool :=
  decide (s.attempts < s.max_attempts)

/-- `SelectionState.record_attempt`. -/
def SelectionState.record_attempt (s : SelectionState) : SelectionState :=
  { s with attempts := s.attempts + 1 }

/-- `start_selection(candidates, context)`: its effect on the module-level
`_pending_selection` slot (the rendered candidate list it returns is
presentation only). -/
def start_selection (candidates : List IndicatorInfo) (context : List Nat) :
    Option SelectionState :=
  some ⟨candidates, 0, 2, context⟩

/-- The `"No hay selección pendiente"` result message. -/
def noPendingMsg : List Nat := strToCodes "No hay selección pendiente"

/-- The exhausted-attempts message of `process_selection`. -/
def maxAttemptsMsg : List Nat :=
  strToCodes "Máximo de intentos alcanzado. Usa " ++ q ++ strToCodes "/indicadores" ++
  q ++ strToCodes " para buscar de nuevo."

/-- `f" ({n} intentos restantes)"`. -/
def remainingSuffix (n : Nat) : List Nat :=
  strToCodes " (" ++ natToDec n ++ strToCodes " intentos restantes)"

/-- `process_selection(user_input)`: the module-level `_pending_selection`
slot is passed and returned explicitly.  Returns the new slot plus the
`(completado, id, mensaje)` triple. -/
def process_selection (pending : Option SelectionState) (user_input : List Nat) :
    Option SelectionState × (Bool × Option (List Nat) × List Nat) :=
  match pending with
  | none => (none, (false, none, noPendingMsg))
  | some st0 =>
    if (validate_selection user_input st0.record_attempt.candidates).1 = true then
      (none, (true, (validate_selection user_input st0.record_attempt.candidates).2.1,
        (validate_selection user_input st0.record_attempt.candidates).2.2))
    else if st0.record_attempt.can_retry = false then
      (none, (false, none, maxAttemptsMsg))
    else
      (some st0.record_attempt, (false, none,
        (validate_selection user_input st0.record_attempt.candidates).2.2 ++
          remainingSuffix (st0.record_attempt.max_attempts - st0.record_attempt.attempts)))

/-- C4: every `process_selection` call on a live session increments
`attempts` first; a valid selection clears the session and returns the
resolved code; an invalid selection below the attempt limit keeps the
session (with the incremented counter) and reports the remaining attempts;
an invalid selection at the limit clears the session; a call with no live
session reports "no pending selection" (not a crash); hence with
`maxAttempts = 2` two invalid inputs exhaust the session and a third call
reports "no pending selection". -/
theorem process_selection_spec :
    (∀ (st : SelectionState) (inp : List Nat),
      (validate_selection inp st.candidates).1 = true →
      process_selection (some st) inp =
        (none, (true, (validate_selection inp st.candidates).2.1,
          (validate_selection inp st.candidates).2.2))) ∧
    (∀ (st : SelectionState) (inp : List Nat),
      (validate_selection inp st.candidates).1 = false →
      st.attempts + 1 < st.max_attempts →
      process_selection (some st) inp =
        (some ⟨st.candidates, st.attempts + 1, st.max_attempts, st.context⟩,
          (false, none, (validate_selection inp st.candidates).2.2 ++
            remainingSuffix (st.max_attempts - (st.attempts + 1))))) ∧
    (∀ (st : SelectionState) (inp : List Nat),
      (validate_selection inp st.candidates).1 = false →
      ¬(st.attempts + 1 < st.max_attempts) →
      process_selection (some st) inp = (none, (false, none, maxAttemptsMsg))) ∧
    (∀ inp, process_selection none inp = (none, (false, none, noPendingMsg))) ∧
    (∀ (cands : List IndicatorInfo) (ctx i1 i2 i3 : List Nat),
      (validate_selection i1 cands).1 = false →
      (validate_selection i2 cands).1 = false →
      process_selection (process_selection (process_selection
        (some ⟨cands, 0, 2, ctx⟩) i1).1 i2).1 i3 =
        (none, (false, none, noPendingMsg))) := by
  refine ⟨?_, ?_, ?_, ?_, ?_⟩
  · intro st inp hv
    obtain ⟨cands, att, ma, ctx⟩ := st
    simp only [process_selection, SelectionState.record_attempt] at *
    rw [hv]
    rfl
  · intro st inp hv hlt
    obtain ⟨cands, att, ma, ctx⟩ := st
    simp only [process_selection, SelectionState.record_attempt,
      SelectionState.can_retry] at *
    rw [hv]
    simp [hlt, Nat.lt_iff_add_one_le]
  · intro st inp hv hge
    obtain ⟨cands, att, ma, ctx⟩ := st
    simp only [process_selection, SelectionState.record_attempt,
      SelectionState.can_retry] at *
    rw [hv]
    simp [hge]
  · intro inp
    rfl
  · intro cands ctx i1 i2 i3 h1 h2
    have s1 : (process_selection (some ⟨cands, 0, 2, ctx⟩) i1).1 =
        some ⟨cands, 1, 2, ctx⟩ := by
      simp only [process_selection, SelectionState.record_attempt,
        SelectionState.can_retry]
      rw [h1]
      simp
    have s2 : (process_selection (some ⟨cands, 1, 2, ctx⟩) i2).1 = none := by
      simp only [process_selection, SelectionState.record_attempt,
        SelectionState.can_retry]
      rw [h2]
      simp
    rw [s1, s2]
    rfl

/-- Candidate list used by the C4 witness. -/
def cands0 : List IndicatorInfo := [⟨strToCodes "POBLACION", strToCodes "t", []⟩]

/-- Witness for C4: a valid selection ("1") resolves and clears the session;
three invalid inputs ("zz") en route exhaust a fresh two-attempt session and
the third call reports "no pending selection". -/
theorem process_selection_spec_witness :
    process_selection (some ⟨cands0, 0, 2, []⟩) (strToCodes "1") =
      (none, (true, some (strToCodes "POBLACION"),
        strToCodes "Seleccionado: POBLACION - t")) ∧
    process_selection (process_selection (process_selection
      (some ⟨cands0, 0, 2, []⟩) (strToCodes "zz")).1 (strToCodes "zz")).1
      (strToCodes "zz") = (none, (false, none, noPendingMsg)) := by
  constructor
  · have h := process_selection_spec.1 ⟨cands0, 0, 2, []⟩ (strToCodes "1") (by decide)
    rw [h]
    decide
  · exact process_selection_spec.2.2.2.2 cands0 [] (strToCodes "zz") (strToCodes "zz")
      (strToCodes "zz") (by decide) (by decide)

/-!  ## C9: the dimension detector (`src/data/dimensions.py`)

The module uses four `re` patterns: `\b{prep}\b\s+(\w+)` (searched),
`\b{prep}\s+{dim}\b`, `\b{prep}\s+\w*{dim}\w*\b` and `\b{dim}\b` (all
substituted by the empty string).  They are modelled directly: `\b` is a
word/non-word boundary, `\s+`/`\w+`/`\w*` are maximal character runs (the
patterns never need backtracking because whitespace and word characters are
disjoint and every `dim` starts with a word character), and
`\w*{dim}\w*\b` matches exactly when the maximal word run after the
whitespace contains `dim` as a contiguous substring, the whole run being
consumed. -/

/-- `\w` on this program's alphabet: ASCII alphanumerics, underscore, and
the Spanish accented letters. -/
def isWordCode (c : Nat) : Bool :=
  (48 ≤ c && c ≤ 57) || (65 ≤ c && c ≤ 90) || (97 ≤ c && c ≤ 122) || c = 95 ||
  decide (c ∈ [225, 233, 237, 243, 250, 241, 252, 193, 201, 205, 211, 218, 209, 220])

/-- Is the character at position `i` a word character (out of range counts
as non-word)? -/
def wordAt (s : List Nat) (i : Nat) : Bool := isWordCode (s.getD i 32)

/-- Regex `\b` at position `i`. -/
def boundaryAt (s : List Nat) (i : Nat) : Bool :=
  (decide (i ≠ 0) && wordAt s (i - 1)) != wordAt s i

/-- Does the literal `lit` occur at position `i`? -/
def litAt (s : List Nat) (i : Nat) (lit : List Nat) : Bool :=
  decide ((s.drop i).take lit.length = lit)

/-- Length of the maximal run of `p`-characters starting at `i`. -/
def runLen (p : Nat → Bool) (s : List Nat) (i : Nat) : Nat :=
  ((s.drop i).takeWhile p).length

/-- Maximal `\s` run at `i`. -/
def wsRun (s : List Nat) (i : Nat) : Nat := runLen isWSCode s i

/-- Maximal `\w` run at `i`. -/
def wordRun (s : List Nat) (i : Nat) : Nat := runLen isWordCode s i

/-- Match of `\b{prep}\b\s+(\w+)` at position `i`; returns the end of the
match. -/
def matchPrepWordAt (prep s : List Nat) (i : Nat) : Option Nat :=
  if boundaryAt s i = true ∧ litAt s i prep = true ∧
      boundaryAt s (i + prep.length) = true then
    if 0 < wsRun s (i + prep.length) then
      if 0 < wordRun s (i + prep.length + wsRun s (i + prep.length)) then
        some (i + prep.length + wsRun s (i + prep.length) +
          wordRun s (i + prep.length + wsRun s (i + prep.length)))
      else none
    else none
  else none

/-- `re.search(rf"\b{prep}\b\s+(\w+)", s)`: the first (leftmost) match,
returned as its `group(0)` text. -/
def searchPrepWord (prep s : List Nat) : Option (List Nat) :=
  (List.range (s.length + 1)).findSome? (fun i =>
    (matchPrepWordAt prep s i).map (fun e => (s.drop i).take (e - i)))

/-- Match of `\b{prep}\s+{dim}\b` at position `i`. -/
def matchPrepDimAt (prep dim s : List Nat) (i : Nat) : Option Nat :=
  if boundaryAt s i = true ∧ litAt s i prep = true then
    if 0 < wsRun s (i + prep.length) then
      if litAt s (i + prep.length + wsRun s (i + prep.length)) dim = true ∧
          boundaryAt s (i + prep.length + wsRun s (i + prep.length) + dim.length) = true then
        some (i + prep.length + wsRun s (i + prep.length) + dim.length)
      else none
    else none
  else none

/-- Match of `\b{prep}\s+\w*{dim}\w*\b` at position `i`: after the
whitespace, the maximal word run must contain `dim` and is consumed
entirely. -/
def matchPrepDimFuzzyAt (prep dim s : List Nat) (i : Nat) : Option Nat :=
  if boundaryAt s i = true ∧ litAt s i prep = true then
    if 0 < wsRun s (i + prep.length) then
      if 0 < wordRun s (i + prep.length + wsRun s (i + prep.length)) ∧
          pyContains dim ((s.drop (i + prep.length + wsRun s (i + prep.length))).take
            (wordRun s (i + prep.length + wsRun s (i + prep.length)))) = true then
        some (i + prep.length + wsRun s (i + prep.length) +
          wordRun s (i + prep.length + wsRun s (i + prep.length)))
      else none
    else none
  else none

/-- Match of `\b{dim}\b` at position `i`. -/
def matchDimAt (dim s : List Nat) (i : Nat) : Option Nat :=
  if boundaryAt s i = true ∧ litAt s i dim = true ∧
      boundaryAt s (i + dim.length) = true then
    some (i + dim.length)
  else none

/-- Scanning loop of `re.sub(pattern, '', s)`: advance position by position,
skipping (deleting) every leftmost non-overlapping match.  All patterns here
consume at least one character, so fuel `s.length + 1` suffices. -/
def subAllGo (m : List Nat → Nat → Option Nat) (s : List Nat) :
    Nat → Nat → List Nat
  | 0, i => s.drop i
  | fuel + 1, i =>
    if s.length ≤ i then []
    else
      match m s i with
      | some e =>
        if i < e then subAllGo m s fuel e
        else s.getD i 32 :: subAllGo m s fuel (i + 1)
      | none => s.getD i 32 :: subAllGo m s fuel (i + 1)

/-- `re.sub(pattern, '', s)` for a matcher `m`. -/
def subAll (m : List Nat → Nat → Option Nat) (s : List Nat) : List Nat :=
  subAllGo m s (s.length + 1) 0

/-- `str.split()` helper: accumulate the current word (reversed). -/
def pySplitWsGo (acc : List Nat) : List Nat → List (List Nat)
  | [] => if acc.isEmpty then [] else [acc.reverse]
  | c :: t =>
    if isWSCode c then
      if acc.isEmpty then pySplitWsGo [] t
      else acc.reverse :: pySplitWsGo [] t
    else pySplitWsGo (c :: acc) t

/-- Python `str.split()` (split on whitespace runs, no empty parts). -/
def pySplitWs (s : List Nat) : List (List Nat) := pySplitWsGo [] s

/-- `DIMENSION_KEYWORDS` (dict in source; insertion order preserved). -/
def DIMENSION_KEYWORDS : List (List Nat × List Nat) :=
  [(strToCodes "isla", strToCodes "GEOGRAPHICAL"),
   (strToCodes "islas", strToCodes "GEOGRAPHICAL"),
   (strToCodes "municipio", strToCodes "GEOGRAPHICAL"),
   (strToCodes "municipios", strToCodes "GEOGRAPHICAL"),
   (strToCodes "comarca", strToCodes "GEOGRAPHICAL"),
   (strToCodes "comarcas", strToCodes "GEOGRAPHICAL"),
   (strToCodes "provincia", strToCodes "GEOGRAPHICAL"),
   (strToCodes "provincias", strToCodes "GEOGRAPHICAL"),
   (strToCodes "canarias", strToCodes "GEOGRAPHICAL"),
   (strToCodes "sexo", strToCodes "SEX"),
   (strToCodes "género", strToCodes "SEX"),
   (strToCodes "hombre", strToCodes "SEX"),
   (strToCodes "hombres", strToCodes "SEX"),
   (strToCodes "mujer", strToCodes "SEX"),
   (strToCodes "mujeres", strToCodes "SEX"),
   (strToCodes "edad", strToCodes "AGE"),
   (strToCodes "edades", strToCodes "AGE"),
   (strToCodes "años", strToCodes "AGE"),
   (strToCodes "grupo de edad", strToCodes "AGE"),
   (strToCodes "grupos de edad", strToCodes "AGE"),
   (strToCodes "jóvenes", strToCodes "AGE"),
   (strToCodes "mayores", strToCodes "AGE"),
   (strToCodes "niños", strToCodes "AGE"),
   (strToCodes "año", strToCodes "TIME"),
   (strToCodes "trimestre", strToCodes "TIME"),
   (strToCodes "mes", strToCodes "TIME"),
   (strToCodes "mensual", strToCodes "TIME"),
   (strToCodes "anual", strToCodes "TIME"),
   (strToCodes "trimestral", strToCodes "TIME"),
   (strToCodes "nacionalidad", strToCodes "NATIONALITY"),
   (strToCodes "extranjero", strToCodes "NATIONALITY"),
   (strToCodes "extranjeros", strToCodes "NATIONALITY"),
   (strToCodes "español", strToCodes "NATIONALITY"),
   (strToCodes "españoles", strToCodes "NATIONALITY")]

/-- `BREAKDOWN_PREPOSITIONS` (a Python `set`; its iteration order is
unspecified, which is observable only when several prepositions match — not
the case for the inputs verified here; modelled in source listing order). -/
def BREAKDOWN_PREPOSITIONS : List (List Nat) :=
  [strToCodes "por", strToCodes "según", strToCodes "desglosado",
   strToCodes "desagregado", strToCodes "distribuido"]

/-- `detect_dimensions(text)`: scan the lowered text for every vocabulary
keyword; collect matches in order and their types as a set. -/
def detect_dimensions (text : List Nat) : List (List Nat) × List (List Nat) :=
  DIMENSION_KEYWORDS.foldl (fun acc kv =>
    if pyContains kv.1 (pyLower text) = true then (acc.1 ++ [kv.1], setAdd acc.2 kv.2)
    else acc) ([], [])

/-- `QueryAnalysis` (dataclass; the `Set[str]` of types is modelled as a
duplicate-free list in insertion order). -/
structure QueryAnalysis where
  original_query : List Nat
  indicator_query : List Nat
  dimensions : List (List Nat)
  dimension_types : List (List Nat)
  has_breakdown : Bool
  breakdown_phrase : List Nat
deriving DecidableEq

/-- The two `re.sub` removals applied for one preposition/dimension pair. -/
def removePrepDim (prep dim iq : List Nat) : List Nat :=
  subAll (matchPrepDimFuzzyAt prep dim) (subAll (matchPrepDimAt prep dim) iq)

/-- `analyze_query(query)`: breakdown detection, dimension detection, then
textual removal of breakdown phrases and standalone dimension keywords from
the lowered query, collapsing whitespace. -/
def analyze_query (query : List Nat) : QueryAnalysis :=
  let ql := pyLower query
  let bd := BREAKDOWN_PREPOSITIONS.findSome? (fun prep => searchPrepWord prep ql)
  let dims := detect_dimensions ql
  let iq1 := BREAKDOWN_PREPOSITIONS.foldl (fun iq prep =>
    dims.1.foldl (fun iq dim => removePrepDim prep dim iq) iq) ql
  let iq2 := dims.1.foldl (fun iq dim => subAll (matchDimAt dim) iq) iq1
  ⟨query, pyStrip (List.intercalate [32] (pySplitWs iq2)), dims.1, dims.2,
    bd.isSome, bd.getD []⟩

/-- C9: `analyzeQuery("población por isla")` detects the dimension `"isla"`,
reports a breakdown, and its `indicatorQuery` contains the substring
`"población"`. -/
theorem analyze_query_poblacion_por_isla :
    strToCodes "isla" ∈ (analyze_query (strToCodes "población por isla")).dimensions ∧
    (analyze_query (strToCodes "población por isla")).has_breakdown = true ∧
    pyContains (strToCodes "población")
      (analyze_query (strToCodes "población por isla")).indicator_query = true := by
  decide
